import Mathlib

/-!
A shallow embedding of the Stablewealth investment/referral platform.

Database rows become Lean structures over exact rational arithmetic (the
JS/SQL code manipulates decimal amounts; we model them as `ℚ`), and every
operation examined here becomes a pure function from a database state `DB`
to a new state (or `Option DB` / `Except String DB` for fallible flows).
Timestamps are milliseconds since the Unix epoch (`Nat`); the code's ISO
date strings `YYYY-MM-DD` are represented by their day number
(`ms / 86400000`) — lexicographic comparison of ISO date strings agrees
with numeric comparison of day numbers, so `<` / `>=` on day numbers is a
faithful rendering of the string comparisons in the source.

Supabase query semantics are modelled faithfully where they matter:
`.single()` succeeds only when the filter matches exactly one row
(`single?` below); SQL `SELECT ... INTO` takes the first matching row
(`List.head?`); a PL/pgSQL `RAISE EXCEPTION` aborts the whole stored
procedure, which we model with `Except` (an error leaves the caller with
the original, unmodified state).
-/

namespace Stablewealth

/-- A `profiles` row: identity, referral linkage and the three balances. -/
structure Profile where
  id : String
  referral_code : String
  sponsor_id : Option String
  main_wallet_balance : ℚ
  fund_wallet_balance : ℚ := 0
  total_jarvis_tokens : ℚ := 0
  is_admin : Bool := false
deriving DecidableEq, Repr

/-- An `investment_plans` row. `created_at` is in ms since the epoch. -/
structure InvestmentPlan where
  id : String
  user_id : String
  plan_type : String := "A"
  investment_amount : ℚ
  daily_percentage : ℚ
  created_at : Nat
  total_profit_earned : ℚ := 0
  is_active : Bool := true
deriving DecidableEq, Repr

/-- A `profit_distributions` row; `distribution_date` is a day number. -/
structure ProfitDistribution where
  plan_id : String
  user_id : String
  profit_amount : ℚ
  distribution_date : Nat
deriving DecidableEq, Repr

/-- A `transactions` ledger row. -/
structure Transaction where
  id : String := ""
  user_id : String
  transaction_type : String
  amount : ℚ
  fee : ℚ := 0
  net_amount : ℚ := 0
  status : String
  reference_id : Option String := none
  description : String := ""
  plan_id : Option String := none
deriving DecidableEq, Repr

/-- A `referral_commissions` row. -/
structure ReferralCommission where
  referrer_id : String
  referred_id : String
  commission_amount : ℚ
  commission_percentage : ℚ
  level : Nat
deriving DecidableEq, Repr

/-- A `withdrawal_requests` row. -/
structure WithdrawalRequest where
  id : String
  user_id : String
  amount : ℚ
  status : String
deriving DecidableEq, Repr

/-- A `deposit_requests` row. -/
structure DepositRequest where
  id : String
  user_id : String
  amount : ℚ
  status : String
  currency : String := "USDT"
  network : String := "BSC"
  tx_hash : String := ""
deriving DecidableEq, Repr

/-- The whole relational state the examined code touches. -/
structure DB where
  profiles : List Profile := []
  plans : List InvestmentPlan := []
  distributions : List ProfitDistribution := []
  transactions : List Transaction := []
  commissions : List ReferralCommission := []
  withdrawal_requests : List WithdrawalRequest := []
  deposit_requests : List DepositRequest := []
deriving DecidableEq, Repr

/-- PostgREST `.single()`: the query result only when the filter matches
exactly one row; any other cardinality is an error (`none`). -/
def single? {α : Type} (l : List α) (f : α → Bool) : Option α :=
  match l.filter f with
  | [a] => some a
  | _ => none

/-- Milliseconds in a day. -/
def msPerDay : Nat := 86400000

/-- Day number of a millisecond timestamp (UTC calendar day). -/
def dayOf (t : Nat) : Nat := t / msPerDay

/-- Maximum of a list of day numbers, `none` when empty (models
`order by distribution_date desc limit 1`). -/
def listMaxNat : List Nat → Option Nat
  | [] => none
  | d :: ds =>
    match listMaxNat ds with
    | none => some d
    | some m => some (max d m)

/-! ## Daily profit distribution (src/lib/optimizedReferralService.ts,
`distributeInvestmentProfits`) -/

/-- Does a `profit_distributions` row for the plan on the given day exist?
Models the `eq(plan_id).eq(distribution_date, today)` existence check. -/
def hasDistOn (dists : List ProfitDistribution) (pid : String) (day : Nat) : Bool :=
  dists.any (fun r => r.plan_id == pid && r.distribution_date == day)

/-- Latest recorded distribution day for a plan. -/
def lastDistDay (dists : List ProfitDistribution) (pid : String) : Option Nat :=
  listMaxNat ((dists.filter (fun r => r.plan_id == pid)).map (·.distribution_date))

/-- The next due distribution day: day after the last one, or the first
distribution day when none exists yet. -/
def nextDistDay (dists : List ProfitDistribution) (pid : String) (firstDay : Nat) : Nat :=
  match lastDistDay dists pid with
  | some m => m + 1
  | none => firstDay

/-- The per-plan body of the distribution loop: `none` when the plan is
skipped, otherwise the queued `profit_distributions` row. The first
distribution day is the plan's creation day normalized to UTC midnight
plus 24 hours, i.e. `dayOf created_at + 1`. -/
def planDecision (dists : List ProfitDistribution) (today : Nat)
    (pl : InvestmentPlan) : Option ProfitDistribution :=
  if today < dayOf pl.created_at + 1 then none
  else if hasDistOn dists pl.id today then none
  else if nextDistDay dists pl.id (dayOf pl.created_at + 1) ≤ today then
    some { plan_id := pl.id, user_id := pl.user_id,
           profit_amount := pl.investment_amount * pl.daily_percentage / 100,
           distribution_date := today }
  else none

/-- The `profitDistributions` array queued by one run: active plans only,
each passed through `planDecision`. -/
def eligibleDistributions (db : DB) (today : Nat) : List ProfitDistribution :=
  (db.plans.filter (fun pl => pl.is_active)).filterMap (planDecision db.distributions today)

/-- Sum of queued profit amounts matching a filter (the in-memory
aggregation of `userUpdates`, and the per-plan accumulation loop). -/
def sumProfitsBy (queued : List ProfitDistribution) (f : ProfitDistribution → Bool) : ℚ :=
  ((queued.filter f).map (·.profit_amount)).sum

/-- First-occurrence deduplication (iteration order of the `userUpdates`
map keys). -/
def dedupKeys : List String → List String
  | [] => []
  | x :: xs => x :: (dedupKeys xs).filter (fun y => y ≠ x)

/-- Does `id = i` match exactly one profile row? (`.single()` on the
balance fetch; a failed fetch makes the code `continue`.) -/
def uniqueById (profiles : List Profile) (i : String) : Bool :=
  (profiles.filter (fun p => p.id == i)).length == 1

/-- Does `id = i` match exactly one plan row? -/
def uniquePlanId (plans : List InvestmentPlan) (i : String) : Bool :=
  (plans.filter (fun pl => pl.id == i)).length == 1

/-- One run of `distributeInvestmentProfits` at wall-clock time `now`
(ms): queue eligible plans, insert the queued `profit_distributions`
rows, add each user's aggregated profit to their main wallet, insert one
`profit` transaction per credited user, and accumulate each queued plan's
`total_profit_earned`. An empty queue returns early with no writes. -/
def distributeInvestmentProfits (db : DB) (now : Nat) : DB :=
  let today := dayOf now
  let queued := eligibleDistributions db today
  if queued.isEmpty then db
  else
    { db with
      distributions := db.distributions ++ queued
      profiles := db.profiles.map (fun p =>
        if (queued.any (fun q => q.user_id == p.id)) && uniqueById db.profiles p.id then
          { p with main_wallet_balance :=
              p.main_wallet_balance + sumProfitsBy queued (fun q => q.user_id == p.id) }
        else p)
      transactions := db.transactions ++
        (dedupKeys (queued.map (fun q => q.user_id))).filterMap (fun u =>
          if uniqueById db.profiles u then
            some { user_id := u, transaction_type := "profit",
                   amount := sumProfitsBy queued (fun q => q.user_id == u),
                   net_amount := sumProfitsBy queued (fun q => q.user_id == u),
                   status := "completed", description := "Daily profit distribution" }
          else none)
      plans := db.plans.map (fun pl =>
        if (queued.any (fun q => q.plan_id == pl.id)) && uniquePlanId db.plans pl.id then
          { pl with total_profit_earned :=
              pl.total_profit_earned + sumProfitsBy queued (fun q => q.plan_id == pl.id) }
        else pl) }

/-! ## Multi-level referral commissions (src/unnamed/part_002,
`ReferralService`) -/

/-- The 6-level commission schedule, level paired with the USDT rate. -/
def commissionRates : List (Nat × ℚ) :=
  [(1, 10), (2, 5), (3, 3), (4, 2), (5, 1), (6, 1/2)]

/-- `commissionRates[level - 1]?.usdtRate || 0`. -/
def commissionPct (level : Nat) : ℚ :=
  match commissionRates.get? (level - 1) with
  | some r => r.2
  | none => 0

/-- One hop of the upline walk: look up the current profile, read its
`sponsor_id`, and resolve the referrer whose `referral_code` equals it.
A falsy (`none` or empty) sponsor or a non-unique lookup stops the walk. -/
def chainStep (profiles : List Profile) (cur : String) : Option Profile :=
  match single? profiles (fun p => p.id == cur) with
  | none => none
  | some me =>
    match me.sponsor_id with
    | none => none
    | some sp =>
      if sp == "" then none
      else single? profiles (fun p => p.referral_code == sp)

/-- The bounded upline walk (`getReferralChain`), fuel = remaining levels. -/
def chainGo (profiles : List Profile) : Nat → String → List Profile
  | 0, _ => []
  | fuel + 1, cur =>
    match chainStep profiles cur with
    | none => []
    | some ref => ref :: chainGo profiles fuel ref.id

/-- `getReferralChain`: up to 6 ancestors of a user. -/
def getReferralChain (profiles : List Profile) (userId : String) : List Profile :=
  chainGo profiles 6 userId

/-- `payCommission`: fetch the referrer (throwing — `none` — when the id
does not match exactly one row), write their new absolute balance, and
append a `referral_bonus` transaction and a commission record. The
human-readable description strings are not modelled. -/
def payCommission (db : DB) (referrerId referredUserId : String)
    (transactionAmount : ℚ) (level : Nat) (usdtRate : ℚ) : Option DB :=
  match single? db.profiles (fun p => p.id == referrerId) with
  | none => none
  | some referrer =>
    some { db with
      profiles := db.profiles.map (fun p =>
        if p.id == referrerId then
          { p with main_wallet_balance :=
              referrer.main_wallet_balance + transactionAmount * usdtRate / 100 }
        else p)
      transactions := db.transactions ++
        [{ user_id := referrerId, transaction_type := "referral_bonus",
           amount := transactionAmount * usdtRate / 100,
           net_amount := transactionAmount * usdtRate / 100,
           status := "completed", description := "referral commission" }]
      commissions := db.commissions ++
        [{ referrer_id := referrerId, referred_id := referredUserId,
           commission_amount := transactionAmount * usdtRate / 100,
           commission_percentage := commissionPct level, level := level }] }

/-- The sequential commission loop: each failing `payCommission` aborts
the whole processing (the loop body `await`s and the surrounding
`try` rethrows). -/
def processChain (uid : String) (amount : ℚ) : DB → List (Profile × Nat × ℚ) → Option DB
  | db, [] => some db
  | db, (r, lv, rate) :: rest =>
    match payCommission db r.id uid amount lv rate with
    | none => none
    | some d => processChain uid amount d rest

/-- `processReferralCommissions`: walk the upline and pay level `i + 1`
to the `i`-th ancestor, bounded by the 6-entry rate table. -/
def processReferralCommissions (db : DB) (userId : String) (amount : ℚ) : Option DB :=
  processChain userId amount db ((getReferralChain db.profiles userId).zip commissionRates)

/-! ## The three "total referrals" computations (claim C8) -/

/-- `countAllReferralsRecursive` (optimizedReferralService): count all
descendants reachable through `sponsor_id = referral_code` links, fuel =
`maxDepth - depth` (the source starts at depth 0 with maxDepth 6). A
falsy (empty) child referral code is not recursed into. -/
def countAllReferralsRecursive (profiles : List Profile) : Nat → String → Nat
  | 0, _ => 0
  | fuel + 1, code =>
    let direct := profiles.filter (fun p => p.sponsor_id == some code)
    direct.length + (direct.map (fun p =>
      if p.referral_code == "" then 0
      else countAllReferralsRecursive profiles fuel p.referral_code)).sum

/-- `ReferralService.getReferralStats`'s `totalReferrals`: the number of
distinct `referred_id`s among the user's commission rows. -/
def statsTotalReferrals (commissions : List ReferralCommission) (uid : String) : Nat :=
  (((commissions.filter (fun c => c.referrer_id == uid)).map (·.referred_id)).dedup).length

/-- `getDirectReferralsCount`: the number of profiles whose `sponsor_id`
equals the user's own referral code. -/
def getDirectReferralsCount (db : DB) (uid : String) : Nat :=
  match single? db.profiles (fun p => p.id == uid) with
  | none => 0
  | some u =>
    if u.referral_code == "" then 0
    else (db.profiles.filter (fun p => p.sponsor_id == some u.referral_code)).length

/-! ## Withdrawal stored procedures
(src/supabase/fix_withdrawal_approval_logic.sql) -/

/-- Is the caller an admin? -/
def isAdmin (db : DB) (callerId : String) : Bool :=
  db.profiles.any (fun p => p.id == callerId && p.is_admin)

/-- `SELECT * INTO` on the pending withdrawal request: first matching row. -/
def findPendingWithdrawal (db : DB) (rid : String) : Option WithdrawalRequest :=
  (db.withdrawal_requests.filter (fun r => r.id == rid && r.status == "pending")).head?

/-- `SELECT main_wallet_balance INTO` for a user: first matching row. -/
def findBalance (db : DB) (uid : String) : Option ℚ :=
  ((db.profiles.filter (fun p => p.id == uid)).head?).map (·.main_wallet_balance)

/-- The balance test of `approve_withdrawal_request`; a PL/pgSQL
`NULL < amount` comparison is not true, so a missing profile row does
not count as insufficient. -/
def insufficientBalance (db : DB) (req : WithdrawalRequest) : Bool :=
  match findBalance db req.user_id with
  | some bal => decide (bal < req.amount)
  | none => false

/-- `approve_withdrawal_request`: admin check, pending-request check,
balance check, then deduct the amount, mark the request approved and the
withdrawal transaction completed. An exception (`Except.error`) leaves
the state unchanged. -/
def approve_withdrawal_request (db : DB) (callerId rid : String)
    (notes : String) : Except String DB :=
  if !isAdmin db callerId then
    Except.error "Access denied. Admin privileges required."
  else
    match findPendingWithdrawal db rid with
    | none => Except.error "Withdrawal request not found or already processed"
    | some req =>
      if insufficientBalance db req then
        Except.error "User has insufficient balance for withdrawal"
      else
        Except.ok { db with
          profiles := db.profiles.map (fun p =>
            if p.id == req.user_id then
              { p with main_wallet_balance := p.main_wallet_balance - req.amount }
            else p)
          withdrawal_requests := db.withdrawal_requests.map (fun r =>
            if r.id == rid then { r with status := "approved" } else r)
          transactions := db.transactions.map (fun t =>
            if t.reference_id == some rid && t.transaction_type == "withdrawal" then
              { t with status := "completed",
                       description := "Withdrawal approved: " ++ notes }
            else t) }

/-- `reject_withdrawal_request`: admin check, mark the pending request
rejected (raising when none was pending), and mark the withdrawal
transaction failed. No profile row is touched. -/
def reject_withdrawal_request (db : DB) (callerId rid : String)
    (notes : String) : Except String DB :=
  if !isAdmin db callerId then
    Except.error "Access denied. Admin privileges required."
  else if !(db.withdrawal_requests.any (fun r => r.id == rid && r.status == "pending")) then
    Except.error "Withdrawal request not found or already processed"
  else
    Except.ok { db with
      withdrawal_requests := db.withdrawal_requests.map (fun r =>
        if r.id == rid && r.status == "pending" then { r with status := "rejected" } else r)
      transactions := db.transactions.map (fun t =>
        if t.reference_id == some rid && t.transaction_type == "withdrawal" then
          { t with status := "failed",
                   description := "Withdrawal rejected: " ++ notes }
        else t) }

/-! ## BSC deposit route (src/app/api/bsc/deposit/route.ts) -/

/-- The `POST /api/bsc/deposit` handler: validations, duplicate check by
`reference_id = txHash` through `.single()`, then insertion of a pending
deposit transaction (`newTxId` stands for the database-generated id).
Returns the HTTP status, the response message on the error paths, and
the resulting state. -/
def postDeposit (db : DB) (userId txHash : String) (amount : ℚ)
    (newTxId : String) : (Nat × String) × DB :=
  if userId == "" then ((400, "User ID is required"), db)
  else if txHash == "" then ((400, "Transaction hash is required"), db)
  else if amount < 10 then ((400, "Minimum deposit amount is 10 USDT"), db)
  else if 50000 < amount then ((400, "Maximum deposit amount is 50000 USDT"), db)
  else
    match single? db.profiles (fun p => p.id == userId) with
    | none => ((404, "User profile not found"), db)
    | some _ =>
      match single? db.transactions (fun t => t.reference_id == some txHash) with
      | some _ => ((400, "Transaction already processed"), db)
      | none =>
        ((200, "Deposit submitted successfully"),
         { db with transactions := db.transactions ++
            [{ id := newTxId, user_id := userId, transaction_type := "deposit",
               amount := amount, status := "pending",
               reference_id := some txHash,
               description := "Deposit (Manual Verification)" }] })

/-- The `PUT /api/bsc/deposit` approval handler. The `process_bsc_deposit`
RPC is not part of the sources, so it is passed in abstractly as `rpc`
(state, gross amount, fee, net amount). A commission-processing failure
is caught and ignored; the transaction is then marked completed. -/
def putApproveDeposit (db : DB) (transactionId : String)
    (rpc : DB → ℚ → ℚ → ℚ → Option DB) : Nat × DB :=
  match single? db.transactions (fun t =>
      t.id == transactionId && t.transaction_type == "deposit" && t.status == "pending") with
  | none => (404, db)
  | some txn =>
    let fee := txn.amount * (1/100)
    let net := txn.amount - fee
    match rpc db txn.amount fee net with
    | none => (500, db)
    | some db1 =>
      let db2 :=
        match processReferralCommissions db1 txn.user_id txn.amount with
        | some d => d
        | none => db1
      (200, { db2 with transactions := db2.transactions.map (fun t =>
        if t.id == transactionId then
          { t with status := "completed",
                   description := txn.description ++ " - Approved" }
        else t) })

/-! ## Investment flow (`handleInvest` in the invest page) -/

/-- The state after the three principal writes of `handleInvest` (plan
insert, fund-wallet deduction, investment transaction), before the
commission step. -/
def investPrincipalState (db : DB) (userId : String) (amount : ℚ)
    (newPlanId : String) (now : Nat) (profile : Profile) : DB :=
  { db with
    plans := db.plans ++
      [{ id := newPlanId, user_id := userId, plan_type := "A",
         investment_amount := amount, daily_percentage := 3,
         created_at := now }]
    profiles := db.profiles.map (fun p =>
      if p.id == userId then
        { p with fund_wallet_balance := profile.fund_wallet_balance - amount }
      else p)
    transactions := db.transactions ++
      [{ user_id := userId, transaction_type := "investment",
         amount := amount, net_amount := amount, status := "completed",
         plan_id := some newPlanId, description := "Investment in USDT Staking" }] }

/-- `handleInvest`: validate the amount against plan A's bounds and the
fund wallet, perform the principal writes, then process referral
commissions with failures swallowed. Returns success and the new state. -/
def handleInvest (db : DB) (userId : String) (amount : ℚ)
    (newPlanId : String) (now : Nat) : Bool × DB :=
  if amount < 10 || 50000 < amount then (false, db)
  else
    match single? db.profiles (fun p => p.id == userId) with
    | none => (false, db)
    | some profile =>
      if profile.fund_wallet_balance < amount then (false, db)
      else
        let db3 := investPrincipalState db userId amount newPlanId now profile
        let db4 :=
          match processReferralCommissions db3 userId amount with
          | some d => d
          | none => db3
        (true, db4)

/-! ## Manual deposit approval
(src/supabase/missing_functions_consolidated.sql) -/

/-- Floor of a rational as an integer (the denominator is positive, so
flooring integer division of the numerator by the denominator). -/
def floorQ (x : ℚ) : ℤ := x.num.fdiv x.den

/-- Casting a numeric value into a `DECIMAL(15,2)` variable rounds it to
two fractional digits, half away from zero. -/
def roundCents (x : ℚ) : ℚ :=
  if 0 ≤ x then (floorQ (x * 100 + 1/2) : ℚ) / 100
  else -((floorQ ((-x) * 100 + 1/2) : ℚ) / 100)

/-- `process_manual_deposit_approval`: find the pending request, compute
the 1% fee and the net amount (both `DECIMAL(15,2)` variables, hence
rounded to cents), insert a completed deposit transaction carrying the
NET amount in both `amount` and `net_amount`, credit the net amount to
the user's main wallet, and mark the request approved. Returns the
`success` flag and the state. -/
def process_manual_deposit_approval (db : DB) (rid adminId : String) : Bool × DB :=
  match (db.deposit_requests.filter (fun r => r.id == rid && r.status == "pending")).head? with
  | none => (false, db)
  | some req =>
    let fee := roundCents (req.amount * (1/100))
    let net := roundCents (req.amount - fee)
    (true, { db with
      transactions := db.transactions ++
        [{ user_id := req.user_id, transaction_type := "deposit",
           amount := net, fee := fee, net_amount := net,
           status := "completed",
           description := "Manual deposit - " ++ req.currency ++ " (" ++ req.network ++ ")",
           reference_id := some req.tx_hash }]
      profiles := db.profiles.map (fun p =>
        if p.id == req.user_id then
          { p with main_wallet_balance := p.main_wallet_balance + net }
        else p)
      deposit_requests := db.deposit_requests.map (fun r =>
        if r.id == rid then { r with status := "approved" } else r) })

/-! ## TON purchase route (src/app/api/ton/purchase/route.ts) -/

/-- The `POST /api/ton/purchase` handler: `N` coins cost `N * 0.1`; a
cost strictly above the fund wallet is rejected with 400 and no writes;
otherwise the fund wallet decreases by the cost, jarvis tokens increase
by `N`, and a completed `ton_purchase` transaction is appended. -/
def postTonPurchase (db : DB) (userId : String) (tonAmount : ℚ) : Nat × DB :=
  if userId == "" then (400, db)
  else if tonAmount ≤ 0 then (400, db)
  else
    match single? db.profiles (fun p => p.id == userId) with
    | none => (404, db)
    | some profile =>
      let totalCost := tonAmount * (1/10)
      if profile.fund_wallet_balance < totalCost then (400, db)
      else
        (200, { db with
          profiles := db.profiles.map (fun p =>
            if p.id == userId then
              { p with fund_wallet_balance := profile.fund_wallet_balance - totalCost,
                       total_jarvis_tokens := profile.total_jarvis_tokens + tonAmount }
            else p)
          transactions := db.transactions ++
            [{ user_id := userId, transaction_type := "ton_purchase",
               amount := totalCost, net_amount := totalCost,
               status := "completed", description := "TON purchase" }] })

/-! ## Concrete database states used to exercise the theorems -/

/-- One user with one active 1000-USDT, 3%-daily plan created at 23:00
UTC on day 0 (82800000 ms). -/
def dbDist : DB :=
  { profiles := [{ id := "u1", referral_code := "RC1", sponsor_id := none,
                   main_wallet_balance := 0 }]
    plans := [{ id := "p1", user_id := "u1", investment_amount := 1000,
                daily_percentage := 3, created_at := 82800000 }] }

/-- A 3-profile referral tree: `u` (code A) sponsors `b` (code B), who
sponsors `c`; no commission rows exist yet. -/
def dbC8 : DB :=
  { profiles :=
      [{ id := "u", referral_code := "A", sponsor_id := none, main_wallet_balance := 0 },
       { id := "b", referral_code := "B", sponsor_id := some "A", main_wallet_balance := 0 },
       { id := "c", referral_code := "C", sponsor_id := some "B", main_wallet_balance := 0 }] }

/-- One user with a pending manual deposit request of 10.55 USDT. -/
def dbC9 : DB :=
  { profiles := [{ id := "u9", referral_code := "R9", sponsor_id := none,
                   main_wallet_balance := 0 }]
    deposit_requests := [{ id := "d9", user_id := "u9", amount := 1055/100,
                           status := "pending", tx_hash := "h9" }] }

/-- A 7-profile sponsor chain: `u0` is sponsored by `m1`, who is
sponsored by `m2`, and so on up to `m6`. -/
def dbChain : DB :=
  { profiles :=
      [{ id := "u0", referral_code := "K0", sponsor_id := some "K1", main_wallet_balance := 0 },
       { id := "m1", referral_code := "K1", sponsor_id := some "K2", main_wallet_balance := 0 },
       { id := "m2", referral_code := "K2", sponsor_id := some "K3", main_wallet_balance := 0 },
       { id := "m3", referral_code := "K3", sponsor_id := some "K4", main_wallet_balance := 0 },
       { id := "m4", referral_code := "K4", sponsor_id := some "K5", main_wallet_balance := 0 },
       { id := "m5", referral_code := "K5", sponsor_id := some "K6", main_wallet_balance := 0 },
       { id := "m6", referral_code := "K6", sponsor_id := none, main_wallet_balance := 0 }] }

/-- A depositor whose level-1 referrer's id `rd` is duplicated across two
profile rows, which makes the commission payout throw. One pending
deposit transaction `t1` awaits approval. -/
def dbC6dep : DB :=
  { profiles :=
      [{ id := "ud", referral_code := "CU", sponsor_id := some "RX", main_wallet_balance := 0 },
       { id := "rd", referral_code := "RX", sponsor_id := none, main_wallet_balance := 0 },
       { id := "rd", referral_code := "QX", sponsor_id := none, main_wallet_balance := 0 }]
    transactions := [{ id := "t1", user_id := "ud", transaction_type := "deposit",
                       amount := 100, status := "pending", reference_id := some "hh",
                       description := "Deposit (Manual Verification)" }] }

/-- An investor with 100 USDT of fund wallet whose level-1 referrer's id
`ri` is duplicated, making commission processing throw. -/
def dbC6inv : DB :=
  { profiles :=
      [{ id := "ui", referral_code := "CI", sponsor_id := some "RY",
         main_wallet_balance := 0, fund_wallet_balance := 100 },
       { id := "ri", referral_code := "RY", sponsor_id := none, main_wallet_balance := 0 },
       { id := "ri", referral_code := "QY", sponsor_id := none, main_wallet_balance := 0 }] }

/-- An admin plus a user with 40 USDT facing a pending 50-USDT
withdrawal request. -/
def dbC5 : DB :=
  { profiles :=
      [{ id := "adm", referral_code := "AC", sponsor_id := none,
         main_wallet_balance := 0, is_admin := true },
       { id := "u5", referral_code := "C5c", sponsor_id := none, main_wallet_balance := 40 }]
    withdrawal_requests := [{ id := "w1", user_id := "u5", amount := 50, status := "pending" }] }

/-- A state already corrupted with TWO transactions sharing the
reference id `h7`. -/
def dbC7dup : DB :=
  { profiles := [{ id := "u7", referral_code := "R7", sponsor_id := none,
                   main_wallet_balance := 0 }]
    transactions :=
      [{ id := "x1", user_id := "u7", transaction_type := "deposit", amount := 20,
         status := "pending", reference_id := some "h7" },
       { id := "x2", user_id := "u7", transaction_type := "deposit", amount := 20,
         status := "pending", reference_id := some "h7" }] }

/-- A clean state with exactly one transaction carrying the reference id
`h8`. -/
def dbC7one : DB :=
  { profiles := [{ id := "u8", referral_code := "R8", sponsor_id := none,
                   main_wallet_balance := 0 }]
    transactions :=
      [{ id := "y1", user_id := "u8", transaction_type := "deposit", amount := 20,
         status := "pending", reference_id := some "h8" }] }

/-- A buyer with exactly 10 USDT of fund wallet (enough for 100 coins). -/
def dbC10 : DB :=
  { profiles := [{ id := "u10", referral_code := "RT", sponsor_id := none,
                   main_wallet_balance := 7, fund_wallet_balance := 10,
                   total_jarvis_tokens := 0 }] }

/-! ## Generic lemmas about the query helpers -/

theorem single?_of_filter {α : Type} {l : List α} {f : α → Bool} {a : α}
    (h : l.filter f = [a]) : single? l f = some a := by
  simp [single?, h]

theorem mem_of_single? {α : Type} {l : List α} {f : α → Bool} {a : α}
    (h : single? l f = some a) : a ∈ l ∧ f a = true := by
  unfold single? at h
  split at h
  next x heq =>
    injection h with h
    subst h
    have hx : x ∈ l.filter f := by rw [heq]; exact List.mem_singleton_self x
    exact ⟨List.mem_of_mem_filter hx, List.of_mem_filter hx⟩
  next => cases h

theorem filter_key_single {α κ : Type} [DecidableEq κ] (key : α → κ)
    (l : List α) (a : α) (hnd : (l.map key).Nodup) (ha : a ∈ l) :
    l.filter (fun x => key x == key a) = [a] := by
  induction l with
  | nil => cases ha
  | cons x t ih =>
    rw [List.map_cons, List.nodup_cons] at hnd
    rcases List.mem_cons.mp ha with rfl | hat
    · have ht : t.filter (fun y => key y == key a) = [] := by
        rw [List.filter_eq_nil_iff]
        intro y hy hk
        exact hnd.1 (beq_iff_eq.mp hk ▸ List.mem_map_of_mem key hy)
      simp [List.filter_cons, ht]
    · have hne : (key x == key a) = false := by
        rw [beq_eq_false_iff_ne]
        intro he
        exact hnd.1 (he ▸ List.mem_map_of_mem key hat)
      simp [List.filter_cons, hne, ih hnd.2 hat]

theorem single?_key {α κ : Type} [DecidableEq κ] (key : α → κ)
    (l : List α) (a : α) (hnd : (l.map key).Nodup) (ha : a ∈ l) :
    single? l (fun x => key x == key a) = some a :=
  single?_of_filter (filter_key_single key l a hnd ha)

/-! ## Claim C8: the three referral-count definitions disagree -/

/-- C8: the three "total referrals" computations are not extensionally
equal. In the state `dbC8` the recursive descendant count for user `u`
(code A) is 2, the count of distinct referred ids in `u`'s commission
rows is 0, and the direct sponsor-match count is 1 — three pairwise
different values for the same user. -/
theorem spec_C8 :
    countAllReferralsRecursive dbC8.profiles 6 "A" = 2 ∧
    statsTotalReferrals dbC8.commissions "u" = 0 ∧
    getDirectReferralsCount dbC8 "u" = 1 ∧
    countAllReferralsRecursive dbC8.profiles 6 "A" ≠ statsTotalReferrals dbC8.commissions "u" ∧
    countAllReferralsRecursive dbC8.profiles 6 "A" ≠ getDirectReferralsCount dbC8 "u" ∧
    statsTotalReferrals dbC8.commissions "u" ≠ getDirectReferralsCount dbC8 "u" := by
  decide

/-! ## Claim C9: manual deposit approval amounts -/

/-- C9 counterexample: for the pending request of A = 10.55 USDT in
`dbC9`, the approved fee is 0.11 (not 0.01 × A = 0.1055) and the wallet
is credited 10.44 (not 0.99 × A = 10.4445), because the `DECIMAL(15,2)`
fee variable rounds to cents. This refutes the claim as stated. -/
theorem spec_C9_counterexample :
    ((process_manual_deposit_approval dbC9 "d9" "adm").2.profiles.map
        (·.main_wallet_balance) = [1044/100]) ∧
    (1044/100 : ℚ) ≠ 0 + (99/100) * (1055/100) ∧
    ((process_manual_deposit_approval dbC9 "d9" "adm").2.transactions.map (·.fee) =
        [11/100]) ∧
    (11/100 : ℚ) ≠ (1/100) * (1055/100) := by
  with_unfolding_all decide

/-- C9 amended: approving a pending deposit request of amount A charges
the fee `roundCents (A / 100)` (0.01 × A rounded to cents, half away
from zero — equal to 0.01 × A exactly when that is a whole-cent value),
credits the user's main wallet with A minus that fee rounded to cents,
and records that NET amount (not the gross A) in both the `amount` and
`net_amount` fields of the created transaction row. -/
theorem spec_C9_amended (db : DB) (rid adminId : String) (req : DepositRequest) (p : Profile)
    (hreq : (db.deposit_requests.filter
        (fun r => r.id == rid && r.status == "pending")).head? = some req)
    (hp : p ∈ db.profiles) (hpid : p.id = req.user_id) :
    (process_manual_deposit_approval db rid adminId).1 = true ∧
    { p with main_wallet_balance :=
        p.main_wallet_balance + roundCents (req.amount - roundCents (req.amount * (1/100))) }
      ∈ (process_manual_deposit_approval db rid adminId).2.profiles ∧
    (process_manual_deposit_approval db rid adminId).2.transactions =
      db.transactions ++
        [{ user_id := req.user_id, transaction_type := "deposit",
           amount := roundCents (req.amount - roundCents (req.amount * (1/100))),
           fee := roundCents (req.amount * (1/100)),
           net_amount := roundCents (req.amount - roundCents (req.amount * (1/100))),
           status := "completed",
           description := "Manual deposit - " ++ req.currency ++ " (" ++ req.network ++ ")",
           reference_id := some req.tx_hash }] := by
  unfold process_manual_deposit_approval
  rw [hreq]
  refine ⟨rfl, ?_, rfl⟩
  refine List.mem_map.mpr ⟨p, hp, ?_⟩
  have hb : (p.id == req.user_id) = true := by simp [hpid]
  simp [hb]

/-- C9 witness: the amended theorem applied to the concrete state
`dbC9` and its request of 10.55 USDT. -/
theorem spec_C9_witness :
    (process_manual_deposit_approval dbC9 "d9" "adm").1 = true ∧
    { id := "u9", referral_code := "R9", sponsor_id := none,
      main_wallet_balance :=
        (0 : ℚ) + roundCents ((1055/100 : ℚ) - roundCents ((1055/100 : ℚ) * (1/100))) }
      ∈ (process_manual_deposit_approval dbC9 "d9" "adm").2.profiles ∧
    (process_manual_deposit_approval dbC9 "d9" "adm").2.transactions =
      dbC9.transactions ++
        [{ user_id := "u9", transaction_type := "deposit",
           amount := roundCents ((1055/100 : ℚ) - roundCents ((1055/100 : ℚ) * (1/100))),
           fee := roundCents ((1055/100 : ℚ) * (1/100)),
           net_amount := roundCents ((1055/100 : ℚ) - roundCents ((1055/100 : ℚ) * (1/100))),
           status := "completed",
           description := "Manual deposit - " ++ "USDT" ++ " (" ++ "BSC" ++ ")",
           reference_id := some "h9" }] :=
  spec_C9_amended dbC9 "d9" "adm"
    { id := "d9", user_id := "u9", amount := 1055/100, status := "pending", tx_hash := "h9" }
    { id := "u9", referral_code := "R9", sponsor_id := none, main_wallet_balance := 0 }
    (by with_unfolding_all decide) (by with_unfolding_all decide) (by with_unfolding_all decide)

/-! ## Claim C10: TON purchase cost, rejection and frame -/

/-- C10: a purchase of N coins costs exactly N × 0.1. When the cost
strictly exceeds the fund wallet the request is rejected with 400 and
the state is unchanged; otherwise it succeeds, the buyer's profile
changes only in `fund_wallet_balance` (− cost) and `total_jarvis_tokens`
(+ N) with `main_wallet_balance` untouched, every other profile row is
unchanged, and a completed `ton_purchase` transaction for the cost is
appended. A cost exactly equal to the balance succeeds and leaves the
fund wallet at 0. -/
theorem spec_C10 (db : DB) (uid : String) (N : ℚ) (p : Profile)
    (huid : uid ≠ "") (hN : 0 < N)
    (hmem : p ∈ db.profiles) (hid : p.id = uid)
    (hnd : (db.profiles.map (·.id)).Nodup) :
    (p.fund_wallet_balance < N * (1/10) → postTonPurchase db uid N = (400, db)) ∧
    (N * (1/10) ≤ p.fund_wallet_balance →
      (postTonPurchase db uid N).1 = 200 ∧
      { p with fund_wallet_balance := p.fund_wallet_balance - N * (1/10),
               total_jarvis_tokens := p.total_jarvis_tokens + N }
        ∈ (postTonPurchase db uid N).2.profiles ∧
      (∀ q ∈ db.profiles, q.id ≠ uid → q ∈ (postTonPurchase db uid N).2.profiles) ∧
      (postTonPurchase db uid N).2.transactions =
        db.transactions ++
          [{ user_id := uid, transaction_type := "ton_purchase",
             amount := N * (1/10), net_amount := N * (1/10),
             status := "completed", description := "TON purchase" }] ∧
      (N * (1/10) = p.fund_wallet_balance →
        { p with fund_wallet_balance := 0, total_jarvis_tokens := p.total_jarvis_tokens + N }
          ∈ (postTonPurchase db uid N).2.profiles)) := by
  have hs : single? db.profiles (fun q => q.id == uid) = some p := by
    have h0 := single?_key Profile.id db.profiles p hnd hmem
    simpa [hid] using h0
  have h1 : ¬((uid == "") = true) := by simp [huid]
  have h2 : ¬(N ≤ 0) := not_le.mpr hN
  have hbody : postTonPurchase db uid N =
      (if p.fund_wallet_balance < N * (1/10) then (400, db)
       else (200, { db with
         profiles := db.profiles.map (fun q =>
           if q.id == uid then
             { q with fund_wallet_balance := p.fund_wallet_balance - N * (1/10),
                      total_jarvis_tokens := p.total_jarvis_tokens + N }
           else q)
         transactions := db.transactions ++
           [{ user_id := uid, transaction_type := "ton_purchase",
              amount := N * (1/10), net_amount := N * (1/10),
              status := "completed", description := "TON purchase" }] })) := by
    unfold postTonPurchase
    rw [if_neg h1, if_neg h2, hs]
  constructor
  · intro hlt
    rw [hbody, if_pos hlt]
  · intro hle
    have hnlt : ¬(p.fund_wallet_balance < N * (1/10)) := not_lt.mpr hle
    rw [hbody, if_neg hnlt]
    have hself : ({ p with
        fund_wallet_balance := p.fund_wallet_balance - N * (1/10),
        total_jarvis_tokens := p.total_jarvis_tokens + N } : Profile)
        ∈ db.profiles.map (fun q =>
            if q.id == uid then
              { q with fund_wallet_balance := p.fund_wallet_balance - N * (1/10),
                       total_jarvis_tokens := p.total_jarvis_tokens + N }
            else q) := by
      refine List.mem_map.mpr ⟨p, hmem, ?_⟩
      simp [hid]
    refine ⟨rfl, hself, ?_, rfl, ?_⟩
    · intro q hq hqne
      refine List.mem_map.mpr ⟨q, hq, ?_⟩
      have : (q.id == uid) = false := by simp [hqne]
      simp [this]
    · intro heq
      have hz : p.fund_wallet_balance - N * (1/10) = 0 := by
        rw [heq]; exact sub_self _
      have hrec : ({ p with
          fund_wallet_balance := 0,
          total_jarvis_tokens := p.total_jarvis_tokens + N } : Profile)
          = { p with fund_wallet_balance := p.fund_wallet_balance - N * (1/10),
                     total_jarvis_tokens := p.total_jarvis_tokens + N } := by
        rw [hz]
      rw [hrec]
      exact hself

/-- C10 witness: in `dbC10` user u10 buys 100 coins for exactly the
10-USDT fund balance; the purchase succeeds, the fund wallet goes to 0,
the token balance to 100, and the main wallet stays at 7. -/
theorem spec_C10_witness :
    (postTonPurchase dbC10 "u10" 100).1 = 200 ∧
    ({ id := "u10", referral_code := "RT", sponsor_id := none,
       main_wallet_balance := 7, fund_wallet_balance := 0,
       total_jarvis_tokens := 100 } : Profile) ∈ (postTonPurchase dbC10 "u10" 100).2.profiles := by
  have h := spec_C10 dbC10 "u10" 100
    { id := "u10", referral_code := "RT", sponsor_id := none,
      main_wallet_balance := 7, fund_wallet_balance := 10, total_jarvis_tokens := 0 }
    (by with_unfolding_all decide) (by with_unfolding_all decide)
    (by with_unfolding_all decide) (by with_unfolding_all decide)
    (by with_unfolding_all decide)
  have h2 := h.2 (by with_unfolding_all decide)
  refine ⟨h2.1, ?_⟩
  have h3 := h2.2.2.2.2 (by with_unfolding_all decide)
  simpa using h3

/-! ## Claim C7: duplicate-deposit protection -/

/-- C7 counterexample: in the state `dbC7dup`, where TWO transactions
already carry reference id h7, submitting a deposit with txHash h7 is
NOT rejected: `.single()` errors on multiple rows, the error is
discarded, and a third transaction with the same reference id is
inserted with a 200 response. This refutes the claim as stated. -/
theorem spec_C7_counterexample :
    dbC7dup.transactions.any (fun t => t.reference_id == some "h7") = true ∧
    (postDeposit dbC7dup "u7" "h7" 100 "x3").1.1 = 200 ∧
    ((postDeposit dbC7dup "u7" "h7" 100 "x3").2.transactions.filter
        (fun t => t.reference_id == some "h7")).length = 3 := by
  with_unfolding_all decide

/-- C7 amended: when EXACTLY ONE existing transaction matches the
submitted txHash, the deposit is rejected with 400 "Transaction already
processed" and nothing is inserted; consequently, from any state in
which at most one transaction carries the hash, the flow leaves at most
one transaction carrying it (no duplicate is ever created from a clean
state). When two or more rows already share the hash, the exact-one
`.single()` lookup fails and the deposit is inserted anyway. -/
theorem spec_C7_amended (db : DB) (uid h newId : String) (amount : ℚ)
    (huid : uid ≠ "") (hh : h ≠ "")
    (h10 : 10 ≤ amount) (h50 : amount ≤ 50000)
    (hprof : ∃ u, db.profiles.filter (fun p => p.id == uid) = [u]) :
    ((db.transactions.filter (fun t => t.reference_id == some h)).length = 1 →
      postDeposit db uid h amount newId = ((400, "Transaction already processed"), db)) ∧
    ((db.transactions.filter (fun t => t.reference_id == some h)).length ≤ 1 →
      ((postDeposit db uid h amount newId).2.transactions.filter
          (fun t => t.reference_id == some h)).length ≤ 1) := by
  obtain ⟨u, hu⟩ := hprof
  have hsu : single? db.profiles (fun p => p.id == uid) = some u := single?_of_filter hu
  have h1 : ¬((uid == "") = true) := by simp [huid]
  have h2 : ¬((h == "") = true) := by simp [hh]
  have h3 : ¬(amount < 10) := not_lt.mpr h10
  have h4 : ¬(50000 < amount) := not_lt.mpr h50
  have hrej : (db.transactions.filter (fun t => t.reference_id == some h)).length = 1 →
      postDeposit db uid h amount newId = ((400, "Transaction already processed"), db) := by
    intro hlen
    obtain ⟨t, ht⟩ := List.length_eq_one.mp hlen
    have hst : single? db.transactions (fun t => t.reference_id == some h) = some t :=
      single?_of_filter ht
    unfold postDeposit
    rw [if_neg h1, if_neg h2, if_neg h3, if_neg h4, hsu, hst]
  refine ⟨hrej, ?_⟩
  intro hlen
  rcases hf : db.transactions.filter (fun t => t.reference_id == some h) with _ | ⟨t, ts⟩
  · have hst : single? db.transactions (fun t => t.reference_id == some h) = none := by
      simp [single?, hf]
    unfold postDeposit
    rw [if_neg h1, if_neg h2, if_neg h3, if_neg h4, hsu, hst]
    simp [List.filter_append, hf]
  · rcases ts with _ | ⟨t2, ts2⟩
    · rw [hrej (by rw [hf]; rfl)]
      simp [hf]
    · rw [hf] at hlen
      simp at hlen

/-- C7 witness: the amended theorem applied to the clean state `dbC7one`
with its single h8-transaction — the resubmission is rejected and the
state is unchanged. -/
theorem spec_C7_witness :
    postDeposit dbC7one "u8" "h8" 100 "y2" = ((400, "Transaction already processed"), dbC7one) :=
  (spec_C7_amended dbC7one "u8" "h8" "y2" 100
    (by with_unfolding_all decide) (by with_unfolding_all decide)
    (by with_unfolding_all decide) (by with_unfolding_all decide)
    ⟨{ id := "u8", referral_code := "R8", sponsor_id := none, main_wallet_balance := 0 },
      by with_unfolding_all decide⟩).1 (by with_unfolding_all decide)

/-! ## Claim C5: withdrawal approval and rejection -/

/-- C5: `approve_withdrawal_request` returns successfully only when the
selected user balance is at least the requested amount (and raises
"User has insufficient balance for withdrawal", leaving the state
unchanged — an `Except.error` carries no new state — when the balance is
smaller); `reject_withdrawal_request` never changes any profile row, so
no `main_wallet_balance` is mutated by a rejection. -/
theorem spec_C5 (db : DB) (caller rid notes : String) :
    (∀ s', approve_withdrawal_request db caller rid notes = Except.ok s' →
      ∀ req, findPendingWithdrawal db rid = some req →
      ∀ bal, findBalance db req.user_id = some bal → req.amount ≤ bal) ∧
    (∀ req, findPendingWithdrawal db rid = some req →
      ∀ bal, findBalance db req.user_id = some bal →
      bal < req.amount → isAdmin db caller = true →
      approve_withdrawal_request db caller rid notes =
        Except.error "User has insufficient balance for withdrawal") ∧
    (∀ s', reject_withdrawal_request db caller rid notes = Except.ok s' →
      s'.profiles = db.profiles) := by
  refine ⟨?_, ?_, ?_⟩
  · intro s' hok req hreq bal hbal
    by_contra hnle
    push_neg at hnle
    have hins : insufficientBalance db req = true := by
      unfold insufficientBalance
      rw [hbal]
      exact decide_eq_true hnle
    unfold approve_withdrawal_request at hok
    split at hok
    · simp at hok
    · simp only [hreq] at hok
      rw [hins] at hok
      simp at hok
  · intro req hreq bal hbal hlt hadm
    have hins : insufficientBalance db req = true := by
      unfold insufficientBalance
      rw [hbal]
      exact decide_eq_true hlt
    unfold approve_withdrawal_request
    rw [hadm]
    simp only [Bool.not_true]
    rw [if_neg (by simp)]
    simp only [hreq]
    rw [hins]
    simp
  · intro s' hok
    unfold reject_withdrawal_request at hok
    split at hok
    · simp at hok
    · split at hok
      · simp at hok
      · injection hok with h'
        subst h'
        rfl

/-- C5 witness: in `dbC5` the pending 50-USDT request of user u5 (whose
balance is 40) is refused by the admin approval routine with the
insufficient-balance exception. -/
theorem spec_C5_witness :
    approve_withdrawal_request dbC5 "adm" "w1" "" =
      Except.error "User has insufficient balance for withdrawal" :=
  (spec_C5 dbC5 "adm" "w1" "").2.1
    { id := "w1", user_id := "u5", amount := 50, status := "pending" }
    (by with_unfolding_all decide) 40 (by with_unfolding_all decide)
    (by with_unfolding_all decide) (by with_unfolding_all decide)

/-! ## Lemmas about the profit-distribution run -/

theorem planDecision_some_shape {dists : List ProfitDistribution} {today : Nat}
    {pl : InvestmentPlan} {q : ProfitDistribution}
    (h : planDecision dists today pl = some q) :
    q.plan_id = pl.id ∧ q.user_id = pl.user_id ∧ q.distribution_date = today ∧
    q.profit_amount = pl.investment_amount * pl.daily_percentage / 100 := by
  unfold planDecision at h
  split_ifs at h
  injection h with h
  subst h
  exact ⟨rfl, rfl, rfl, rfl⟩

theorem mem_eligible {db : DB} {today : Nat} {q : ProfitDistribution}
    (h : q ∈ eligibleDistributions db today) :
    ∃ pl, pl ∈ db.plans ∧ pl.is_active = true ∧
      planDecision db.distributions today pl = some q := by
  unfold eligibleDistributions at h
  rcases List.mem_filterMap.mp h with ⟨pl, hpl, hdec⟩
  exact ⟨pl, List.mem_of_mem_filter hpl, List.of_mem_filter hpl, hdec⟩

theorem eligible_of_mem {db : DB} {today : Nat} {pl : InvestmentPlan} {q : ProfitDistribution}
    (hmem : pl ∈ db.plans) (hact : pl.is_active = true)
    (hdec : planDecision db.distributions today pl = some q) :
    q ∈ eligibleDistributions db today := by
  unfold eligibleDistributions
  exact List.mem_filterMap.mpr ⟨pl, List.mem_filter.mpr ⟨hmem, hact⟩, hdec⟩

theorem eligible_dates {db : DB} {today : Nat} :
    ∀ r ∈ eligibleDistributions db today, r.distribution_date = today := by
  intro r hr
  rcases mem_eligible hr with ⟨pl, _, _, hdec⟩
  exact (planDecision_some_shape hdec).2.2.1

theorem run_eq_of_empty (db : DB) (now : Nat)
    (h : (eligibleDistributions db (dayOf now)).isEmpty = true) :
    distributeInvestmentProfits db now = db := by
  simp only [distributeInvestmentProfits]
  rw [if_pos h]

theorem run_eq_of_nonempty (db : DB) (now : Nat)
    (h : (eligibleDistributions db (dayOf now)).isEmpty = false) :
    distributeInvestmentProfits db now = { db with
      distributions := db.distributions ++ eligibleDistributions db (dayOf now)
      profiles := db.profiles.map (fun p =>
        if ((eligibleDistributions db (dayOf now)).any (fun q => q.user_id == p.id)) &&
            uniqueById db.profiles p.id then
          { p with main_wallet_balance := p.main_wallet_balance +
              sumProfitsBy (eligibleDistributions db (dayOf now)) (fun q => q.user_id == p.id) }
        else p)
      transactions := db.transactions ++
        (dedupKeys ((eligibleDistributions db (dayOf now)).map (fun q => q.user_id))).filterMap
          (fun u =>
            if uniqueById db.profiles u then
              some { user_id := u, transaction_type := "profit",
                     amount := sumProfitsBy (eligibleDistributions db (dayOf now))
                       (fun q => q.user_id == u),
                     net_amount := sumProfitsBy (eligibleDistributions db (dayOf now))
                       (fun q => q.user_id == u),
                     status := "completed", description := "Daily profit distribution" }
            else none)
      plans := db.plans.map (fun pl =>
        if ((eligibleDistributions db (dayOf now)).any (fun q => q.plan_id == pl.id)) &&
            uniquePlanId db.plans pl.id then
          { pl with total_profit_earned := pl.total_profit_earned +
              sumProfitsBy (eligibleDistributions db (dayOf now)) (fun q => q.plan_id == pl.id) }
        else pl) } := by
  simp only [distributeInvestmentProfits]
  rw [h]
  rfl

theorem sumProfitsBy_single {queued : List ProfitDistribution} {P : ProfitDistribution → Bool}
    {q : ProfitDistribution} (h : queued.filter P = [q]) :
    sumProfitsBy queued P = q.profit_amount := by
  unfold sumProfitsBy
  rw [h]
  simp

theorem filter_filterMap_single {α β : Type} (f : α → Option β) (P : β → Bool)
    (l : List α) (a : α) (b : β)
    (hnd : l.Nodup) (hmem : a ∈ l) (hf : f a = some b) (hP : P b = true)
    (huniq : ∀ x ∈ l, ∀ y, f x = some y → P y = true → x = a) :
    (l.filterMap f).filter P = [b] := by
  induction l with
  | nil => cases hmem
  | cons x t ih =>
    rw [List.nodup_cons] at hnd
    rcases List.mem_cons.mp hmem with rfl | hat
    · rw [List.filterMap_cons, hf]
      have ht : (t.filterMap f).filter P = [] := by
        rw [List.filter_eq_nil_iff]
        intro y hy hPy
        rcases List.mem_filterMap.mp hy with ⟨z, hz, hfz⟩
        have hza := huniq z (List.mem_cons_of_mem _ hz) y hfz hPy
        subst hza
        exact hnd.1 hz
      simp [List.filter_cons, hP, ht]
    · have hxnone : ∀ y, f x = some y → P y = false := by
        intro y hfy
        cases hPy : P y with
        | false => rfl
        | true =>
          have hxa := huniq x (List.mem_cons_self x t) y hfy hPy
          subst hxa
          exact absurd hat hnd.1
      have ihr := ih hnd.2 hat
        (fun z hz y hfz hPy => huniq z (List.mem_cons_of_mem _ hz) y hfz hPy)
      rw [List.filterMap_cons]
      cases hfx : f x with
      | none => exact ihr
      | some y =>
        rw [List.filter_cons, hxnone y hfx]
        simpa using ihr

/-! ## Claim C1: no distribution on the creation day -/

/-- C1 counterexample: the plan in `dbDist` is created at 23:00 UTC on
day 0 (t = 82800000 ms); running the job at 00:00 UTC on day 1
(t = 86400000 ms) is only one hour later — strictly less than 24 hours
after `created_at` — yet the plan is NOT skipped: a distribution row is
inserted and the owner is credited 30. This refutes the claim that the
job never credits earlier than created_at + 24h. -/
theorem spec_C1_counterexample :
    dbDist.plans.map (·.created_at) = [82800000] ∧
    (86400000 : Nat) < 82800000 + msPerDay ∧
    ((distributeInvestmentProfits dbDist 86400000).distributions.filter
        (fun r => r.plan_id == "p1")).length = 1 ∧
    (distributeInvestmentProfits dbDist 86400000).profiles.map (·.main_wallet_balance) =
      [30] := by
  with_unfolding_all decide

/-- C1 amended: the guarantee the code actually provides is relative to
the plan's creation day normalized to UTC midnight: whenever the job
runs on the plan's creation calendar day or earlier
(`dayOf now < dayOf created_at + 1`), the plan is skipped — it is never
queued, its set of ProfitDistribution rows is unchanged, its plan row
(including `total_profit_earned`) is unchanged, and when it is the
user's only plan the owner's balance row is also unchanged. The first
credit can therefore come before created_at + 24h (see the
counterexample) but never before midnight-of-creation-day + 24h. -/
theorem spec_C1_amended (db : DB) (now : Nat) (plan : InvestmentPlan)
    (hmem : plan ∈ db.plans)
    (hnd : (db.plans.map (·.id)).Nodup)
    (hearly : dayOf now < dayOf plan.created_at + 1) :
    plan.id ∉ (eligibleDistributions db (dayOf now)).map (·.plan_id) ∧
    (distributeInvestmentProfits db now).distributions.filter
        (fun r => r.plan_id == plan.id) =
      db.distributions.filter (fun r => r.plan_id == plan.id) ∧
    plan ∈ (distributeInvestmentProfits db now).plans ∧
    ((∀ pl ∈ db.plans, pl.is_active = true → pl.user_id = plan.user_id → pl = plan) →
      ∀ p ∈ db.profiles, p.id = plan.user_id →
        p ∈ (distributeInvestmentProfits db now).profiles) := by
  have hskip : planDecision db.distributions (dayOf now) plan = none := by
    unfold planDecision
    rw [if_pos hearly]
  have hnone : ∀ q ∈ eligibleDistributions db (dayOf now), q.plan_id ≠ plan.id := by
    intro q hq hqe
    rcases mem_eligible hq with ⟨pl, hplm, hpla, hpld⟩
    have hsh := planDecision_some_shape hpld
    have hide : pl.id = plan.id := by rw [← hsh.1]; exact hqe
    have heqp : pl = plan := List.inj_on_of_nodup_map hnd hplm hmem hide
    rw [heqp, hskip] at hpld
    cases hpld
  have hfirst : plan.id ∉ (eligibleDistributions db (dayOf now)).map (·.plan_id) := by
    intro hin
    rcases List.mem_map.mp hin with ⟨q, hq, hqe⟩
    exact hnone q hq hqe
  by_cases hq : (eligibleDistributions db (dayOf now)).isEmpty = true
  · rw [run_eq_of_empty db now hq]
    exact ⟨hfirst, rfl, hmem, fun _ p hp _ => hp⟩
  · rw [run_eq_of_nonempty db now (Bool.eq_false_iff.mpr hq)]
    have hfilt : (eligibleDistributions db (dayOf now)).filter
        (fun r => r.plan_id == plan.id) = [] := by
      rw [List.filter_eq_nil_iff]
      intro r hr hre
      exact hnone r hr (beq_iff_eq.mp hre)
    have hanyp : (eligibleDistributions db (dayOf now)).any
        (fun q => q.plan_id == plan.id) = false := by
      cases hb : (eligibleDistributions db (dayOf now)).any (fun q => q.plan_id == plan.id) with
      | false => rfl
      | true =>
        rcases List.any_eq_true.mp hb with ⟨r, hr, hre⟩
        exact absurd (beq_iff_eq.mp hre) (hnone r hr)
    refine ⟨hfirst, ?_, ?_, ?_⟩
    · rw [List.filter_append, hfilt, List.append_nil]
    · refine List.mem_map.mpr ⟨plan, hmem, ?_⟩
      rw [hanyp]
      rfl
    · intro honly p hp hpid
      have hanyu : (eligibleDistributions db (dayOf now)).any
          (fun q => q.user_id == p.id) = false := by
        cases hb : (eligibleDistributions db (dayOf now)).any (fun q => q.user_id == p.id) with
        | false => rfl
        | true =>
          rcases List.any_eq_true.mp hb with ⟨r, hr, hre⟩
          rcases mem_eligible hr with ⟨pl, hplm, hpla, hpld⟩
          have hsh := planDecision_some_shape hpld
          have huser : pl.user_id = plan.user_id := by
            rw [← hsh.2.1, beq_iff_eq.mp hre, hpid]
          have heqp : pl = plan := honly pl hplm hpla huser
          rw [heqp, hskip] at hpld
          cases hpld
      refine List.mem_map.mpr ⟨p, hp, ?_⟩
      rw [hanyu]
      rfl

/-- C1 witness for the amended theorem: running the job at 12:00:00.001
UTC on day 0 against `dbDist`, whose only plan was created on day 0,
changes nothing for that plan. -/
theorem spec_C1_witness :
    ("p1" : String) ∉ (eligibleDistributions dbDist (dayOf 43200001)).map (·.plan_id) ∧
    (distributeInvestmentProfits dbDist 43200001).distributions.filter
        (fun r => r.plan_id == "p1") =
      dbDist.distributions.filter (fun r => r.plan_id == "p1") ∧
    ({ id := "p1", user_id := "u1", investment_amount := 1000,
       daily_percentage := 3, created_at := 82800000 } : InvestmentPlan)
      ∈ (distributeInvestmentProfits dbDist 43200001).plans := by
  have h := spec_C1_amended dbDist 43200001
    { id := "p1", user_id := "u1", investment_amount := 1000,
      daily_percentage := 3, created_at := 82800000 }
    (by decide) (by decide) (by decide)
  exact ⟨h.1, h.2.1, h.2.2.1⟩

/-! ## Claim C2: exact payout amounts -/

/-- C2: for an eligible active plan (one whose `planDecision` queues a
row), one run of `distributeInvestmentProfits` credits exactly
`investment_amount * daily_percentage / 100` to the plan's
`total_profit_earned` and, when the plan is its owner's only active
plan, exactly the same amount to the owner's `main_wallet_balance`. -/
theorem spec_C2 (db : DB) (now : Nat) (plan : InvestmentPlan)
    (q : ProfitDistribution) (p : Profile)
    (hmem : plan ∈ db.plans) (hact : plan.is_active = true)
    (hdec : planDecision db.distributions (dayOf now) plan = some q)
    (hndpl : (db.plans.map (·.id)).Nodup)
    (hndpr : (db.profiles.map (·.id)).Nodup)
    (hp : p ∈ db.profiles) (hpid : p.id = plan.user_id)
    (honly : ∀ pl ∈ db.plans, pl.is_active = true → pl.user_id = plan.user_id → pl = plan) :
    q.profit_amount = plan.investment_amount * plan.daily_percentage / 100 ∧
    { plan with total_profit_earned := plan.total_profit_earned + q.profit_amount }
      ∈ (distributeInvestmentProfits db now).plans ∧
    { p with main_wallet_balance := p.main_wallet_balance + q.profit_amount }
      ∈ (distributeInvestmentProfits db now).profiles := by
  have hsh := planDecision_some_shape hdec
  have hqmem : q ∈ eligibleDistributions db (dayOf now) := eligible_of_mem hmem hact hdec
  have hne : (eligibleDistributions db (dayOf now)).isEmpty = false := by
    cases hl : eligibleDistributions db (dayOf now) with
    | nil => rw [hl] at hqmem; cases hqmem
    | cons a l => rfl
  rw [run_eq_of_nonempty db now hne]
  have hndl : db.plans.Nodup := List.Nodup.of_map _ hndpl
  have hfact : plan ∈ db.plans.filter (fun pl => pl.is_active) :=
    List.mem_filter.mpr ⟨hmem, hact⟩
  have hfplan : (eligibleDistributions db (dayOf now)).filter
      (fun r => r.plan_id == plan.id) = [q] := by
    unfold eligibleDistributions
    refine filter_filterMap_single _ _ _ plan q (hndl.filter _) hfact hdec
      (by simp [hsh.1]) ?_
    intro x hx y hfy hPy
    have hshx := planDecision_some_shape hfy
    have hxid : x.id = plan.id := by rw [← hshx.1]; exact beq_iff_eq.mp hPy
    exact List.inj_on_of_nodup_map hndpl (List.mem_of_mem_filter hx) hmem hxid
  have hfuser : (eligibleDistributions db (dayOf now)).filter
      (fun r => r.user_id == p.id) = [q] := by
    unfold eligibleDistributions
    refine filter_filterMap_single _ _ _ plan q (hndl.filter _) hfact hdec
      (by simp [hsh.2.1, hpid]) ?_
    intro x hx y hfy hPy
    have hshx := planDecision_some_shape hfy
    have hxu : x.user_id = plan.user_id := by
      rw [← hshx.2.1, beq_iff_eq.mp hPy, hpid]
    exact honly x (List.mem_of_mem_filter hx) (List.of_mem_filter hx) hxu
  refine ⟨hsh.2.2.2, ?_, ?_⟩
  · refine List.mem_map.mpr ⟨plan, hmem, ?_⟩
    have hany : (eligibleDistributions db (dayOf now)).any
        (fun r => r.plan_id == plan.id) = true :=
      List.any_eq_true.mpr ⟨q, hqmem, by simp [hsh.1]⟩
    have huniq : uniquePlanId db.plans plan.id = true := by
      unfold uniquePlanId
      rw [filter_key_single InvestmentPlan.id db.plans plan hndpl hmem]
      rfl
    rw [hany, huniq, if_pos (show (true && true) = true from rfl),
      sumProfitsBy_single hfplan]
  · refine List.mem_map.mpr ⟨p, hp, ?_⟩
    have hany : (eligibleDistributions db (dayOf now)).any
        (fun r => r.user_id == p.id) = true :=
      List.any_eq_true.mpr ⟨q, hqmem, by simp [hsh.2.1, hpid]⟩
    have huniq : uniqueById db.profiles p.id = true := by
      unfold uniqueById
      rw [filter_key_single Profile.id db.profiles p hndpr hp]
      rfl
    rw [hany, huniq, if_pos (show (true && true) = true from rfl),
      sumProfitsBy_single hfuser]

/-- C2 witness: in `dbDist` (plan of 1000 USDT at 3% daily), running the
job on day 1 credits exactly 30 to the plan accumulator and to the
owner's main wallet. -/
theorem spec_C2_witness :
    ({ plan_id := "p1", user_id := "u1", profit_amount := 30,
       distribution_date := 1 } : ProfitDistribution).profit_amount =
        (1000 : ℚ) * 3 / 100 ∧
    ({ id := "p1", user_id := "u1", investment_amount := 1000, daily_percentage := 3,
       created_at := 82800000, total_profit_earned := (0 : ℚ) + 30 } : InvestmentPlan)
      ∈ (distributeInvestmentProfits dbDist 86400000).plans ∧
    ({ id := "u1", referral_code := "RC1", sponsor_id := none,
       main_wallet_balance := (0 : ℚ) + 30 } : Profile)
      ∈ (distributeInvestmentProfits dbDist 86400000).profiles :=
  spec_C2 dbDist 86400000
    { id := "p1", user_id := "u1", investment_amount := 1000,
      daily_percentage := 3, created_at := 82800000 }
    { plan_id := "p1", user_id := "u1", profit_amount := 30, distribution_date := 1 }
    { id := "u1", referral_code := "RC1", sponsor_id := none, main_wallet_balance := 0 }
    (by decide) (by decide) (by with_unfolding_all decide) (by decide) (by decide)
    (by decide) (by decide) (by decide)

/-! ## Claim C3: same-day idempotency -/

theorem planDecision_update_tpe (dists : List ProfitDistribution) (today : Nat)
    (pl : InvestmentPlan) (x : ℚ) :
    planDecision dists today { pl with total_profit_earned := x } =
      planDecision dists today pl := rfl

theorem planDecision_append_none (dists queued : List ProfitDistribution) (today : Nat)
    (pl : InvestmentPlan)
    (hdates : ∀ r ∈ queued, r.distribution_date = today)
    (h : hasDistOn queued pl.id today = true ∨ planDecision dists today pl = none) :
    planDecision (dists ++ queued) today pl = none := by
  have happ : ∀ (b : Bool), hasDistOn queued pl.id today = b →
      hasDistOn (dists ++ queued) pl.id today = (hasDistOn dists pl.id today || b) := by
    intro b hb
    unfold hasDistOn at hb ⊢
    rw [List.any_append, hb]
  unfold planDecision
  by_cases h1 : today < dayOf pl.created_at + 1
  · rw [if_pos h1]
  · rw [if_neg h1]
    rcases h with hq | hnone
    · rw [happ true hq, Bool.or_true]
      simp
    · unfold planDecision at hnone
      rw [if_neg h1] at hnone
      cases hq2 : hasDistOn queued pl.id today with
      | true =>
        rw [happ true hq2, Bool.or_true]
        simp
      | false =>
        rw [happ false hq2, Bool.or_false]
        cases hd : hasDistOn dists pl.id today with
        | true => simp
        | false =>
          rw [hd, if_neg Bool.false_ne_true] at hnone
          rw [if_neg Bool.false_ne_true]
          have hfq : queued.filter (fun r => r.plan_id == pl.id) = [] := by
            rw [List.filter_eq_nil_iff]
            intro r hr hmatch
            have habs : hasDistOn queued pl.id today = true := by
              unfold hasDistOn
              rw [List.any_eq_true]
              exact ⟨r, hr, by simp [beq_iff_eq.mp hmatch, hdates r hr]⟩
            rw [hq2] at habs
            cases habs
          have hnext : nextDistDay (dists ++ queued) pl.id (dayOf pl.created_at + 1) =
              nextDistDay dists pl.id (dayOf pl.created_at + 1) := by
            unfold nextDistDay lastDistDay
            rw [List.filter_append, hfq, List.append_nil]
          rw [hnext]
          exact hnone

theorem eligible_after_run (db : DB) (now : Nat) :
    eligibleDistributions (distributeInvestmentProfits db now) (dayOf now) = [] := by
  by_cases hq : (eligibleDistributions db (dayOf now)).isEmpty = true
  · rw [run_eq_of_empty db now hq]
    cases hl : eligibleDistributions db (dayOf now) with
    | nil => rfl
    | cons a l => rw [hl] at hq; simp at hq
  · rw [run_eq_of_nonempty db now (Bool.eq_false_iff.mpr hq)]
    unfold eligibleDistributions
    rw [List.filterMap_eq_nil_iff]
    intro x hx
    rcases List.mem_filter.mp hx with ⟨hxm, hxa⟩
    rcases List.mem_map.mp hxm with ⟨pl, hpl, rfl⟩
    have hxa' : pl.is_active = true := by
      revert hxa
      split <;> exact fun hh => hh
    have hmain : planDecision
        (db.distributions ++ eligibleDistributions db (dayOf now)) (dayOf now) pl = none := by
      apply planDecision_append_none _ _ _ _ (fun r hr => eligible_dates r hr)
      rcases hd : planDecision db.distributions (dayOf now) pl with _ | q
      · exact Or.inr rfl
      · refine Or.inl ?_
        unfold hasDistOn
        rw [List.any_eq_true]
        have hqE : q ∈ eligibleDistributions db (dayOf now) :=
          eligible_of_mem hpl hxa' hd
        have hsh := planDecision_some_shape hd
        exact ⟨q, hqE, by simp [hsh.1, hsh.2.2.1]⟩
    dsimp only
    split
    · rw [planDecision_update_tpe]
      exact hmain
    · exact hmain

/-- C3: running `distributeInvestmentProfits` a second time at the same
wall-clock time (hence the same calendar day) is a no-op: every plan
credited by the first run now has a ProfitDistribution row dated today
and is skipped, every plan skipped by the first run is skipped again,
so the second run queues nothing and returns the state unchanged —
balances, plan accumulators, distributions and transactions included. -/
theorem spec_C3 (db : DB) (now : Nat) :
    distributeInvestmentProfits (distributeInvestmentProfits db now) now =
      distributeInvestmentProfits db now := by
  apply run_eq_of_empty
  rw [eligible_after_run db now]
  rfl

/-- C3 witness: the idempotency theorem applied to the concrete state
`dbDist` on day 1, where the first run does credit the plan. -/
theorem spec_C3_witness :
    distributeInvestmentProfits (distributeInvestmentProfits dbDist 86400000) 86400000 =
      distributeInvestmentProfits dbDist 86400000 :=
  spec_C3 dbDist 86400000

/-! ## Lemmas about the referral commission engine -/

theorem chainStep_mem {profiles : List Profile} {cur : String} {r : Profile}
    (h : chainStep profiles cur = some r) : r ∈ profiles := by
  unfold chainStep at h
  split at h
  · exact Option.noConfusion h
  · split at h
    · exact Option.noConfusion h
    · split at h
      · exact Option.noConfusion h
      · exact (mem_of_single? h).1

theorem chainGo_subset (profiles : List Profile) :
    ∀ (fuel : Nat) (cur : String), ∀ r ∈ chainGo profiles fuel cur, r ∈ profiles := by
  intro fuel
  induction fuel with
  | zero => intro cur r hr; cases hr
  | succ n ih =>
    intro cur r hr
    unfold chainGo at hr
    split at hr
    · cases hr
    next ref href =>
      rcases List.mem_cons.mp hr with rfl | hr'
      · exact chainStep_mem href
      · exact ih ref.id r hr'

theorem map_id_update (l : List Profile) (g : Profile → Profile)
    (hg : ∀ p, (g p).id = p.id) :
    (l.map g).map (·.id) = l.map (·.id) := by
  rw [List.map_map]
  exact List.map_congr_left (fun p _ => hg p)

theorem payCommission_eq (d : DB) (rid uid : String) (A rate : ℚ) (lv : Nat) (r : Profile)
    (hmem : r ∈ d.profiles) (hrid : r.id = rid)
    (hnd : (d.profiles.map (·.id)).Nodup) :
    payCommission d rid uid A lv rate = some { d with
      profiles := d.profiles.map (fun p =>
        if p.id == rid then
          { p with main_wallet_balance := r.main_wallet_balance + A * rate / 100 }
        else p)
      transactions := d.transactions ++
        [{ user_id := rid, transaction_type := "referral_bonus",
           amount := A * rate / 100, net_amount := A * rate / 100,
           status := "completed", description := "referral commission" }]
      commissions := d.commissions ++
        [{ referrer_id := rid, referred_id := uid,
           commission_amount := A * rate / 100,
           commission_percentage := commissionPct lv, level := lv }] } := by
  have hs : single? d.profiles (fun p => p.id == rid) = some r := by
    have h0 := single?_key Profile.id d.profiles r hnd hmem
    simpa [hrid] using h0
  unfold payCommission
  rw [hs]

theorem processChain_run (uid : String) (A : ℚ) :
    ∀ (items : List (Profile × Nat × ℚ)) (d : DB),
      (∀ it ∈ items, it.1.id ∈ d.profiles.map (·.id)) →
      (d.profiles.map (·.id)).Nodup →
      ∃ d', processChain uid A d items = some d' ∧
        d'.commissions = d.commissions ++ items.map (fun it =>
          { referrer_id := it.1.id, referred_id := uid,
            commission_amount := A * it.2.2 / 100,
            commission_percentage := commissionPct it.2.1, level := it.2.1 }) ∧
        d'.profiles.map (·.id) = d.profiles.map (·.id) ∧
        d'.plans = d.plans ∧
        (∀ p ∈ d.profiles, (∀ it ∈ items, it.1.id ≠ p.id) → p ∈ d'.profiles) ∧
        (∀ p ∈ d.profiles, ∀ it,
          items.filter (fun it2 => it2.1.id == p.id) = [it] →
          { p with main_wallet_balance := p.main_wallet_balance + A * it.2.2 / 100 }
            ∈ d'.profiles) := by
  intro items
  induction items with
  | nil =>
    intro d _ _
    refine ⟨d, rfl, by simp, rfl, rfl, fun p hp _ => hp, ?_⟩
    intro p _ it hfit
    simp at hfit
  | cons x rest ih =>
    rcases x with ⟨xr, xlv, xrate⟩
    intro d hall hnd
    have hx : xr.id ∈ d.profiles.map (·.id) := hall _ (List.mem_cons_self _ _)
    rcases List.mem_map.mp hx with ⟨r, hr, hrid⟩
    have hpay := payCommission_eq d xr.id uid A xrate xlv r hr hrid hnd
    have hgid : ∀ p : Profile,
        ((fun p => if p.id == xr.id then
          { p with main_wallet_balance := r.main_wallet_balance + A * xrate / 100 }
        else p) p).id = p.id := by
      intro p
      dsimp only
      split <;> rfl
    obtain ⟨d', hrun, hcomm, hids, hplans, hframe, hcredit⟩ :=
      ih { d with
        profiles := d.profiles.map (fun p =>
          if p.id == xr.id then
            { p with main_wallet_balance := r.main_wallet_balance + A * xrate / 100 }
          else p)
        transactions := d.transactions ++
          [{ user_id := xr.id, transaction_type := "referral_bonus",
             amount := A * xrate / 100, net_amount := A * xrate / 100,
             status := "completed", description := "referral commission" }]
        commissions := d.commissions ++
          [{ referrer_id := xr.id, referred_id := uid,
             commission_amount := A * xrate / 100,
             commission_percentage := commissionPct xlv, level := xlv }] }
        (by
          intro it hit
          have hids1 := map_id_update d.profiles _ hgid
          rw [hids1]
          exact hall it (List.mem_cons_of_mem _ hit))
        (by
          have hids1 := map_id_update d.profiles _ hgid
          rw [hids1]
          exact hnd)
    have hids1 := map_id_update d.profiles _ hgid
    refine ⟨d', ?_, ?_, ?_, ?_, ?_, ?_⟩
    · simp only [processChain]
      rw [hpay]
      exact hrun
    · rw [hcomm]
      simp [List.append_assoc]
    · rw [hids]
      exact hids1
    · exact hplans
    · intro p hp hne
      have hne1 : xr.id ≠ p.id := hne _ (List.mem_cons_self _ _)
      have hfp : (if p.id == xr.id then
          { p with main_wallet_balance := r.main_wallet_balance + A * xrate / 100 }
        else p) = p := by
        rw [if_neg]
        intro hcontra
        exact hne1 (beq_iff_eq.mp hcontra).symm
      refine hframe p ?_ (fun it hit => hne it (List.mem_cons_of_mem _ hit))
      exact List.mem_map.mpr ⟨p, hp, hfp⟩
    · intro p hp it hfit
      rw [List.filter_cons] at hfit
      by_cases hxp : (xr.id == p.id) = true
      · rw [if_pos hxp] at hfit
        injection hfit with hx1 hrest
        subst hx1
        have hrp : r = p :=
          List.inj_on_of_nodup_map hnd hr hp (by rw [hrid]; exact beq_iff_eq.mp hxp)
        have hfp : (if p.id == xr.id then
            { p with main_wallet_balance := r.main_wallet_balance + A * xrate / 100 }
          else p) =
            { p with main_wallet_balance := p.main_wallet_balance + A * xrate / 100 } := by
          rw [if_pos (by rw [beq_iff_eq]; exact (beq_iff_eq.mp hxp).symm), hrp]
        have hmem1 : ({ p with
            main_wallet_balance := p.main_wallet_balance + A * xrate / 100 } : Profile)
            ∈ (d.profiles.map (fun p =>
              if p.id == xr.id then
                { p with main_wallet_balance := r.main_wallet_balance + A * xrate / 100 }
              else p)) :=
          List.mem_map.mpr ⟨p, hp, hfp⟩
        refine hframe _ hmem1 ?_
        intro it2 hit2
        have : (it2.1.id == p.id) = false := by
          have hnil := hrest
          rw [List.filter_eq_nil_iff] at hnil
          cases hb : (it2.1.id == p.id) with
          | false => rfl
          | true => exact absurd hb (hnil it2 hit2)
        intro hcontra
        rw [hcontra] at this
        simp at this
      · rw [if_neg hxp] at hfit
        have hfp : (if p.id == xr.id then
            { p with main_wallet_balance := r.main_wallet_balance + A * xrate / 100 }
          else p) = p := by
          rw [if_neg]
          intro hcontra
          exact hxp (by rw [beq_iff_eq]; exact (beq_iff_eq.mp hcontra).symm)
        exact hcredit p (List.mem_map.mpr ⟨p, hp, hfp⟩) it hfit

/-! ## Claim C4: six-level commission schedule -/

/-- C4: when a user's referral chain has depth ≥ 6 (the walk caps at 6
ancestors), `processReferralCommissions` on a transaction of amount A
pays exactly six commissions, one per level 1..6, recording
`A * rate / 100` with rates 10, 5, 3, 2, 1, 0.5; and (when the six
ancestors are distinct profiles) each level-L ancestor's main wallet is
credited exactly that amount. -/
theorem spec_C4 (db : DB) (uid : String) (A : ℚ) (r1 r2 r3 r4 r5 r6 : Profile)
    (hnd : (db.profiles.map (·.id)).Nodup)
    (hchain : getReferralChain db.profiles uid = [r1, r2, r3, r4, r5, r6]) :
    ∃ db', processReferralCommissions db uid A = some db' ∧
      db'.commissions = db.commissions ++
        [{ referrer_id := r1.id, referred_id := uid, commission_amount := A * 10 / 100,
           commission_percentage := 10, level := 1 },
         { referrer_id := r2.id, referred_id := uid, commission_amount := A * 5 / 100,
           commission_percentage := 5, level := 2 },
         { referrer_id := r3.id, referred_id := uid, commission_amount := A * 3 / 100,
           commission_percentage := 3, level := 3 },
         { referrer_id := r4.id, referred_id := uid, commission_amount := A * 2 / 100,
           commission_percentage := 2, level := 4 },
         { referrer_id := r5.id, referred_id := uid, commission_amount := A * 1 / 100,
           commission_percentage := 1, level := 5 },
         { referrer_id := r6.id, referred_id := uid, commission_amount := A * (1/2) / 100,
           commission_percentage := 1/2, level := 6 }] ∧
      (([r1.id, r2.id, r3.id, r4.id, r5.id, r6.id] : List String).Nodup →
        ({ r1 with main_wallet_balance := r1.main_wallet_balance + A * 10 / 100 } ∈ db'.profiles ∧
         { r2 with main_wallet_balance := r2.main_wallet_balance + A * 5 / 100 } ∈ db'.profiles ∧
         { r3 with main_wallet_balance := r3.main_wallet_balance + A * 3 / 100 } ∈ db'.profiles ∧
         { r4 with main_wallet_balance := r4.main_wallet_balance + A * 2 / 100 } ∈ db'.profiles ∧
         { r5 with main_wallet_balance := r5.main_wallet_balance + A * 1 / 100 } ∈ db'.profiles ∧
         { r6 with main_wallet_balance := r6.main_wallet_balance + A * (1/2) / 100 } ∈ db'.profiles)) := by
  have hmemall : ∀ r ∈ [r1, r2, r3, r4, r5, r6], r ∈ db.profiles := by
    intro r hr
    rw [← hchain] at hr
    exact chainGo_subset db.profiles 6 uid r hr
  have hall : ∀ it ∈ [(r1, 1, (10:ℚ)), (r2, 2, 5), (r3, 3, 3), (r4, 4, 2),
      (r5, 5, 1), (r6, 6, 1/2)], it.1.id ∈ db.profiles.map (·.id) := by
    intro it hit
    simp only [List.mem_cons, List.not_mem_nil, or_false] at hit
    rcases hit with rfl | rfl | rfl | rfl | rfl | rfl <;>
      exact List.mem_map_of_mem _ (hmemall _ (by simp))
  obtain ⟨d', hrun, hcomm, _, _, _, hcredit⟩ := processChain_run uid A
    [(r1, 1, (10:ℚ)), (r2, 2, 5), (r3, 3, 3), (r4, 4, 2), (r5, 5, 1), (r6, 6, 1/2)]
    db hall hnd
  have hz : [r1, r2, r3, r4, r5, r6].zip commissionRates =
      [(r1, 1, (10:ℚ)), (r2, 2, 5), (r3, 3, 3), (r4, 4, 2), (r5, 5, 1), (r6, 6, 1/2)] := rfl
  refine ⟨d', ?_, ?_, ?_⟩
  · unfold processReferralCommissions
    rw [hchain, hz]
    exact hrun
  · rw [hcomm]
    rfl
  · intro hnodup6
    simp only [List.nodup_cons, List.mem_cons, List.not_mem_nil, or_false, not_or,
      List.nodup_nil, and_true, not_false_eq_true] at hnodup6
    obtain ⟨⟨h12, h13, h14, h15, h16⟩, ⟨h23, h24, h25, h26⟩, ⟨h34, h35, h36⟩,
      ⟨h45, h46⟩, h56⟩ := hnodup6
    refine ⟨?_, ?_, ?_, ?_, ?_, ?_⟩
    · exact hcredit r1 (hmemall _ (by simp)) (r1, 1, 10)
        (by simp [List.filter_cons, beq_iff_eq, Ne.symm h12, Ne.symm h13, Ne.symm h14,
          Ne.symm h15, Ne.symm h16])
    · exact hcredit r2 (hmemall _ (by simp)) (r2, 2, 5)
        (by simp [List.filter_cons, beq_iff_eq, h12, Ne.symm h23, Ne.symm h24,
          Ne.symm h25, Ne.symm h26])
    · exact hcredit r3 (hmemall _ (by simp)) (r3, 3, 3)
        (by simp [List.filter_cons, beq_iff_eq, h13, h23, Ne.symm h34, Ne.symm h35,
          Ne.symm h36])
    · exact hcredit r4 (hmemall _ (by simp)) (r4, 4, 2)
        (by simp [List.filter_cons, beq_iff_eq, h14, h24, h34, Ne.symm h45, Ne.symm h46])
    · exact hcredit r5 (hmemall _ (by simp)) (r5, 5, 1)
        (by simp [List.filter_cons, beq_iff_eq, h15, h25, h35, h45, Ne.symm h56])
    · exact hcredit r6 (hmemall _ (by simp)) (r6, 6, 1/2)
        (by simp [List.filter_cons, beq_iff_eq, h16, h26, h36, h46, h56])

/-- C4 witness: in the 7-profile chain `dbChain`, a transaction of 100
by u0 pays the six ancestors 10, 5, 3, 2, 1 and 0.5. -/
theorem spec_C4_witness :
    ∃ db', processReferralCommissions dbChain "u0" 100 = some db' ∧
      db'.commissions = dbChain.commissions ++
        [{ referrer_id := "m1", referred_id := "u0", commission_amount := (100:ℚ) * 10 / 100,
           commission_percentage := 10, level := 1 },
         { referrer_id := "m2", referred_id := "u0", commission_amount := (100:ℚ) * 5 / 100,
           commission_percentage := 5, level := 2 },
         { referrer_id := "m3", referred_id := "u0", commission_amount := (100:ℚ) * 3 / 100,
           commission_percentage := 3, level := 3 },
         { referrer_id := "m4", referred_id := "u0", commission_amount := (100:ℚ) * 2 / 100,
           commission_percentage := 2, level := 4 },
         { referrer_id := "m5", referred_id := "u0", commission_amount := (100:ℚ) * 1 / 100,
           commission_percentage := 1, level := 5 },
         { referrer_id := "m6", referred_id := "u0", commission_amount := (100:ℚ) * (1/2) / 100,
           commission_percentage := 1/2, level := 6 }] ∧
      ((["m1", "m2", "m3", "m4", "m5", "m6"] : List String).Nodup →
        (({ id := "m1", referral_code := "K1", sponsor_id := some "K2",
            main_wallet_balance := (0:ℚ) + 100 * 10 / 100 } : Profile) ∈ db'.profiles ∧
         ({ id := "m2", referral_code := "K2", sponsor_id := some "K3",
            main_wallet_balance := (0:ℚ) + 100 * 5 / 100 } : Profile) ∈ db'.profiles ∧
         ({ id := "m3", referral_code := "K3", sponsor_id := some "K4",
            main_wallet_balance := (0:ℚ) + 100 * 3 / 100 } : Profile) ∈ db'.profiles ∧
         ({ id := "m4", referral_code := "K4", sponsor_id := some "K5",
            main_wallet_balance := (0:ℚ) + 100 * 2 / 100 } : Profile) ∈ db'.profiles ∧
         ({ id := "m5", referral_code := "K5", sponsor_id := some "K6",
            main_wallet_balance := (0:ℚ) + 100 * 1 / 100 } : Profile) ∈ db'.profiles ∧
         ({ id := "m6", referral_code := "K6", sponsor_id := none,
            main_wallet_balance := (0:ℚ) + 100 * (1/2) / 100 } : Profile) ∈ db'.profiles)) :=
  spec_C4 dbChain "u0" 100
    { id := "m1", referral_code := "K1", sponsor_id := some "K2", main_wallet_balance := 0 }
    { id := "m2", referral_code := "K2", sponsor_id := some "K3", main_wallet_balance := 0 }
    { id := "m3", referral_code := "K3", sponsor_id := some "K4", main_wallet_balance := 0 }
    { id := "m4", referral_code := "K4", sponsor_id := some "K5", main_wallet_balance := 0 }
    { id := "m5", referral_code := "K5", sponsor_id := some "K6", main_wallet_balance := 0 }
    { id := "m6", referral_code := "K6", sponsor_id := none, main_wallet_balance := 0 }
    (by decide) (by decide)

/-! ## Claim C6: commission failures never block the primary transaction -/

/-- C6: a failure thrown by `processReferralCommissions` is caught and
does not prevent the primary transaction from completing. For the
deposit-approval route: given a pending deposit transaction and a
successful `process_bsc_deposit` RPC, the route still answers 200 and
marks the transaction completed even when commission processing fails.
For the invest flow: given valid amount and sufficient fund wallet, the
investment plan is still created and the flow reports success even when
commission processing fails. -/
theorem spec_C6 (dbd : DB) (tid : String) (rpc : DB → ℚ → ℚ → ℚ → Option DB)
    (txn : Transaction) (db1 : DB)
    (htxn : single? dbd.transactions (fun t =>
        t.id == tid && t.transaction_type == "deposit" && t.status == "pending") = some txn)
    (hrpc : rpc dbd txn.amount (txn.amount * (1/100))
        (txn.amount - txn.amount * (1/100)) = some db1)
    (hcfail : processReferralCommissions db1 txn.user_id txn.amount = none)
    (dbi : DB) (uidi : String) (Ai : ℚ) (pid : String) (nowi : Nat) (prof : Profile)
    (hA1 : 10 ≤ Ai) (hA2 : Ai ≤ 50000)
    (hprof : single? dbi.profiles (fun p => p.id == uidi) = some prof)
    (hbal : Ai ≤ prof.fund_wallet_balance)
    (hifail : processReferralCommissions
        (investPrincipalState dbi uidi Ai pid nowi prof) uidi Ai = none) :
    ((putApproveDeposit dbd tid rpc).1 = 200 ∧
      ∀ t ∈ (putApproveDeposit dbd tid rpc).2.transactions,
        t.id = tid → t.status = "completed") ∧
    ((handleInvest dbi uidi Ai pid nowi).1 = true ∧
      ∃ pl ∈ (handleInvest dbi uidi Ai pid nowi).2.plans,
        pl.id = pid ∧ pl.user_id = uidi ∧ pl.investment_amount = Ai ∧
          pl.is_active = true) := by
  constructor
  · have hput : putApproveDeposit dbd tid rpc =
        (200, { db1 with transactions := db1.transactions.map (fun t =>
          if t.id == tid then
            { t with status := "completed",
                     description := txn.description ++ " - Approved" }
          else t) }) := by
      unfold putApproveDeposit
      rw [htxn]
      try dsimp only
      rw [hrpc]
      try dsimp only
      rw [hcfail]
    rw [hput]
    refine ⟨rfl, ?_⟩
    intro t ht htid
    rcases List.mem_map.mp ht with ⟨t0, _, rfl⟩
    by_cases hc : (t0.id == tid) = true
    · rw [if_pos hc]
    · rw [if_neg hc] at htid
      exact absurd (beq_iff_eq.mpr htid) hc
  · have hv1 : decide (Ai < 10) = false := decide_eq_false (not_lt.mpr hA1)
    have hv2 : decide (50000 < Ai) = false := decide_eq_false (not_lt.mpr hA2)
    have hinv : handleInvest dbi uidi Ai pid nowi =
        (true, investPrincipalState dbi uidi Ai pid nowi prof) := by
      unfold handleInvest
      rw [if_neg (by rw [hv1, hv2]; simp)]
      rw [hprof]
      try dsimp only
      rw [if_neg (not_lt.mpr hbal)]
      try dsimp only
      rw [hifail]
    rw [hinv]
    refine ⟨rfl, ?_⟩
    refine ⟨{ id := pid, user_id := uidi, plan_type := "A", investment_amount := Ai,
              daily_percentage := 3, created_at := nowi }, ?_, rfl, rfl, rfl, rfl⟩
    exact List.mem_append_right _ (List.mem_singleton_self _)

/-- C6 witness: in `dbC6dep` (a duplicated referrer id makes commission
processing throw) the pending deposit t1 is still approved and marked
completed, and in `dbC6inv` the 50-USDT investment still creates its
plan and succeeds. -/
theorem spec_C6_witness :
    ((putApproveDeposit dbC6dep "t1" (fun d _ _ _ => some d)).1 = 200 ∧
      ∀ t ∈ (putApproveDeposit dbC6dep "t1" (fun d _ _ _ => some d)).2.transactions,
        t.id = "t1" → t.status = "completed") ∧
    ((handleInvest dbC6inv "ui" 50 "pl9" 0).1 = true ∧
      ∃ pl ∈ (handleInvest dbC6inv "ui" 50 "pl9" 0).2.plans,
        pl.id = "pl9" ∧ pl.user_id = "ui" ∧ pl.investment_amount = (50:ℚ) ∧
          pl.is_active = true) :=
  spec_C6 dbC6dep "t1" (fun d _ _ _ => some d)
    { id := "t1", user_id := "ud", transaction_type := "deposit",
      amount := 100, status := "pending", reference_id := some "hh",
      description := "Deposit (Manual Verification)" }
    dbC6dep
    (by with_unfolding_all decide) rfl (by with_unfolding_all decide)
    dbC6inv "ui" 50 "pl9" 0
    { id := "ui", referral_code := "CI", sponsor_id := some "RY",
      main_wallet_balance := 0, fund_wallet_balance := 100 }
    (by with_unfolding_all decide) (by with_unfolding_all decide)
    (by with_unfolding_all decide) (by with_unfolding_all decide)
    (by with_unfolding_all decide)

end Stablewealth
